import Mathlib

/-!
Verification of the peer-connection negotiation and signaling-coordination
engine of the webRTC-screenshare repository.

The development shallowly embeds the two signaling engines of the repository:

* namespace `FB` models `src/hooks/useWebRTCFirebase.ts` (and its refactored
  twin `useOfferAnswer.ts` / `usePeerConnections.ts` / `useMediaStreams.ts`,
  whose handler bodies are textually identical): the offer/answer handlers
  with their id-dedup sets, the `pre-screen-share` coordination protocol,
  the `shareScreen` call sequence, and the initiator election rule.
* namespace `WS` models `src/hooks/useWebRTC.ts` (the socket-based engine):
  the per-peer `pendingCandidates` buffering, and the ICE-failure
  counting/backoff in `oniceconnectionstatechange`.

Asynchronous handlers are modelled as pure functions from an engine state and
a message to a new state plus the ordered list of externally visible actions
(media-engine calls and outbound sends) the handler performs; `setTimeout`
callbacks appear as explicit `schedule…` actions rather than being executed
inline.  Media-engine primitives are modelled on their success path.
-/

namespace WebRTCSpec

/-- `RTCPeerConnection.signalingState` values that occur in the source. -/
inductive SigState where
  | stable
  | haveLocalOffer
  | haveRemoteOffer
  | closed
deriving DecidableEq

/-- `RTCPeerConnection.connectionState` values. -/
inductive ConnState where
  | new
  | connecting
  | connected
  | disconnected
  | failed
  | closed
deriving DecidableEq

/-- `RTCPeerConnection.iceConnectionState` values. -/
inductive IceConnState where
  | new
  | checking
  | connected
  | completed
  | disconnected
  | failed
  | closed
deriving DecidableEq

/-- The fields of one `RTCPeerConnection` that the Firebase engine reads. -/
structure PCInfo where
  sig : SigState
  conn : ConnState
  ice : IceConnState
deriving DecidableEq

/-- The `peerConnections.current` map, keyed by remote peer id. -/
abbrev ConnMap := List (String × PCInfo)

/-- `peerConnections.current[peerId]`. -/
def lookupConn (m : ConnMap) (p : String) : Option PCInfo :=
  (m.find? (fun e => e.1 == p)).map (fun e => e.2)

/-- `delete peerConnections.current[peerId]`. -/
def removeConn (m : ConnMap) (p : String) : ConnMap :=
  m.filter (fun e => e.1 != p)

/-- `peerConnections.current[peerId] = pc`. -/
def setConn (m : ConnMap) (p : String) (pc : PCInfo) : ConnMap :=
  (p, pc) :: removeConn m p

/-- Update the signaling state of an existing entry. -/
def setSig (m : ConnMap) (p : String) (s : SigState) : ConnMap :=
  match lookupConn m p with
  | some pc => setConn m p { pc with sig := s }
  | none => m

/-- An `sdp: {type, sdp}` payload carried by an offer or answer message. -/
structure Sdp where
  sdpType : String
  sdpBody : String
deriving DecidableEq

/-- The validation `!offer || !offer.type || !offer.sdp` from the source
(`''` is falsy in JavaScript, so empty components are invalid). -/
def validSdp : Option Sdp → Bool
  | none => false
  | some s => s.sdpType != "" && s.sdpBody != ""

/-- A message on the `offers` channel: `{from, target, sdp?, type?,
coordinationId?, hasScreen?, timestamp}` (target/timestamp are routing
metadata already checked by the listener and are omitted here). -/
structure OfferData where
  src : String
  sdp : Option Sdp
  msgType : Option String
  coordinationId : Option String
  hasScreen : Bool
deriving DecidableEq

/-- A message on the `answers` channel: `{from, target, sdp, timestamp}`. -/
structure AnswerData where
  src : String
  sdp : Option Sdp
deriving DecidableEq

namespace FB

/-- The mutable refs of `useWebRTCFirebase` that the handlers read or write.
`localSharing` is `localStreamRef.current !== null`, `senders` counts
`streamSenders.current[peerId].length`, and `peerSharing` is the
`isSharing` flag of `peerStreamsWithData`. -/
structure State where
  myId : String
  processedOfferIds : List String
  processedAnswerIds : List String
  processingOffer : Bool
  conns : ConnMap
  localSharing : Bool
  senders : List (String × Nat)
  peerSharing : List (String × Bool)
deriving DecidableEq

/-- Externally visible steps a handler performs, in program order.
`schedule…` constructors stand for `setTimeout` callbacks that have been
registered but not yet run. -/
inductive Action where
  | setRemote (peer : String)
  | answerCreated (peer : String)
  | sendAnswer (peer : String)
  | sendAck (peer : String) (coordId : String)
  | scheduleRetry (delayMs : Nat)
  | closeConn (peer : String)
  | scheduleInitialOffer (peer : String)
  | scheduleTrackWork (peer : String)
  | scheduleReconnectOffer (peer : String)
  | scheduleStreamRequestWork (peer : String)
  | rollback (peer : String)
  | reportError
  | yieldToPeer (peer : String)
  | restartIce
deriving DecidableEq

/-- `streamSenders.current[peerId]?.length ?? 0`. -/
def sendersCount (st : State) (p : String) : Nat :=
  ((st.senders.find? (fun e => e.1 == p)).map (fun e => e.2)).getD 0

/-- `setPeerStreamsWithData` marking `p` as sharing (`isSharing: true`). -/
def markPeerSharing (st : State) (p : String) : State :=
  { st with peerSharing := (p, true) :: st.peerSharing.filter (fun e => e.1 != p) }

/-- `setPeerStreamsWithData` marking `p` as no longer sharing. -/
def markPeerStopped (st : State) (p : String) : State :=
  { st with peerSharing := (p, false) :: st.peerSharing.filter (fun e => e.1 != p) }

/-- `peerStreamsWithData[p]?.isSharing === true`. -/
def sharingOf (st : State) (p : String) : Bool :=
  (((st.peerSharing.find? (fun e => e.1 == p)).map (fun e => e.2)).getD false)

/-- State of a connection just returned by `new RTCPeerConnection(...)`. -/
def freshPC : PCInfo := ⟨.stable, .new, .new⟩

/-- The `setTimeout` callbacks registered by `createPeerConnection` for a
newly created connection: delayed local-track adds when already sharing
(source lines 110-179) and, for an initiator, the delayed initial
`sendOffer` (source lines 343-411). -/
def createPCActions (st : State) (peerId : String) (isInitiator : Bool) : List Action :=
  (if st.localSharing then [Action.scheduleTrackWork peerId] else []) ++
    (if isInitiator then [Action.scheduleInitialOffer peerId] else [])

/-- `createPeerConnection(peerId, isInitiator)` from `useWebRTCFirebase.ts`
lines 72-423: reuse a live existing connection, close a failed/closed one
and replace it, otherwise create and register a fresh one. -/
def createPeerConnection (st : State) (peerId : String) (isInitiator : Bool) :
    State × List Action :=
  match lookupConn st.conns peerId with
  | some pc =>
    if pc.conn = .failed ∨ pc.conn = .closed ∨ pc.ice = .failed then
      ({ st with conns := setConn st.conns peerId freshPC,
                 senders := (peerId, 0) :: st.senders.filter (fun e => e.1 != peerId) },
       Action.closeConn peerId :: createPCActions st peerId isInitiator)
    else
      (st, [])
  | none =>
    ({ st with conns := setConn st.conns peerId freshPC,
               senders := (peerId, 0) :: st.senders.filter (fun e => e.1 != peerId) },
     createPCActions st peerId isInitiator)

/-- `resetAndRecreateConnection(peerId, shouldInitiate)` (lines 426-455):
close and delete any existing connection and senders, then create anew. -/
def resetAndRecreateConnection (st : State) (peerId : String) (shouldInit : Bool) :
    State × List Action :=
  let closeActs := if (lookupConn st.conns peerId).isSome then [Action.closeConn peerId] else []
  let st1 := { st with conns := removeConn st.conns peerId,
                       senders := st.senders.filter (fun e => e.1 != peerId) }
  let r := createPeerConnection st1 peerId shouldInit
  (r.1, closeActs ++ r.2)

/-- Signaling-state effect of a successful `setRemoteDescription(offer)`
followed by `createAnswer`/`setLocalDescription(answer)`. -/
def applyAnswerRound (m : ConnMap) (p : String) : ConnMap :=
  setSig (setSig m p .haveRemoteOffer) p .stable

/-- Conflict branch of `handleOffer` (lines 489-579): both sides are screen
sharing, so the existing connection is closed outright, a fresh responder
connection is created, and the offer is answered on it. -/
def conflictBranch (st : State) (p : String) : State × List Action :=
  let closeActs := if (lookupConn st.conns p).isSome then [Action.closeConn p] else []
  let st1 := { st with conns := removeConn st.conns p }
  let r := createPeerConnection st1 p false
  let st3 := markPeerSharing r.1 p
  ({ st3 with conns := applyAnswerRound st3.conns p, processingOffer := false },
   closeActs ++ r.2 ++ [Action.setRemote p, Action.answerCreated p, Action.sendAnswer p])

/-- Result of the screen-share pre-step: either the handler returned
(with a scheduled retry) or it falls through with an updated state. -/
inductive StepRes where
  | halt (r : State × List Action)
  | next (st : State)

/-- Screen-share pre-step of `handleOffer` (lines 581-620): a screen-share
offer arriving on a non-stable connection resets the connection and
schedules a retry of the message; the handler then returns, and the
surrounding `finally` (lines 1151-1153) clears `processingOffer` — the
timer callback's own clear at line 595 is redundant.  Otherwise the peer is
marked as sharing and processing continues. -/
def screenPreStep (st : State) (p : String) (msg : OfferData) : StepRes :=
  if msg.hasScreen then
    match lookupConn st.conns p with
    | some pc =>
      if pc.sig != .stable then
        let r := resetAndRecreateConnection st p false
        .halt ({ r.1 with processingOffer := false }, r.2 ++ [Action.scheduleRetry 1000])
      else
        .next (markPeerSharing st p)
    | none => .next (markPeerSharing st p)
  else
    .next st

/-- `request-stream` branch of `handleOffer` (lines 623-832), taken when a
stream request arrives while we are sharing. -/
def streamRequestBranch (st : State) (p : String) : State × List Action :=
  let step1 :=
    match lookupConn st.conns p with
    | none => createPeerConnection st p true
    | some pc =>
      if pc.conn = ConnState.closed ∨ pc.conn = ConnState.failed then createPeerConnection st p true
      else (st, [])
  let st1 := step1.1
  match lookupConn st1.conns p with
  | none => ({ st1 with processingOffer := false }, step1.2)
  | some pc =>
    if pc.conn != .connected || sendersCount st1 p == 0 then
      let st2 := { st1 with conns := removeConn st1.conns p }
      let r := createPeerConnection st2 p true
      ({ r.1 with processingOffer := false },
       step1.2 ++ [Action.closeConn p] ++ r.2 ++ [Action.scheduleReconnectOffer p])
    else
      ({ st1 with processingOffer := false },
       step1.2 ++ [Action.scheduleStreamRequestWork p])

/-- `stopped-sharing` branch of `handleOffer` (lines 835-871). -/
def stoppedSharingBranch (st : State) (p : String) : State × List Action :=
  ({ markPeerStopped st p with processingOffer := false }, [])

/-- Response of the `pre-screen-share` coordination branch (lines 878-927):
the acknowledgment is always written, and if this peer is itself sharing the
conflict is decided by raw id comparison — the lower id yields. -/
def preShareResponse (myId p : String) (localSharing : Bool) (coordId : String) :
    List Action :=
  Action.sendAck p coordId ::
    (if localSharing then
      (if myId < p then [Action.yieldToPeer p] else [])
    else [])

/-- `pre-screen-share` branch of `handleOffer` (lines 874-969), covering both
the coordination-id protocol and the legacy message without one. -/
def preShareBranch (st : State) (p : String) (msg : OfferData) : State × List Action :=
  match msg.coordinationId with
  | some c =>
    ({ st with processingOffer := false }, preShareResponse st.myId p st.localSharing c)
  | none =>
    if st.localSharing ∧ st.myId < p then
      if sharingOf st p then ({ st with processingOffer := false }, [Action.reportError])
      else ({ st with processingOffer := false }, [])
    else ({ st with processingOffer := false }, [])

/-- Normal SDP-offer branch of `handleOffer` (lines 971-1147): ensure a
connection exists, validate the SDP, check the signaling state (recreating
and retrying on screen-share glare, dropping otherwise), then apply the
offer and produce an answer.  Every early return runs through the `finally`
of lines 1151-1153, so the branch always hands back `processingOffer` as
`false`. -/
def normalBranch (st : State) (p : String) (msg : OfferData) : State × List Action :=
  let step1 :=
    match lookupConn st.conns p with
    | none => createPeerConnection st p false
    | some pc =>
      if pc.conn = ConnState.closed ∨ pc.conn = ConnState.failed then createPeerConnection st p false
      else (st, [])
  let st1 := step1.1
  if validSdp msg.sdp = false then
    if msg.sdp = none ∧ msg.msgType = none then
      ({ st1 with processingOffer := false }, step1.2)
    else
      ({ st1 with processingOffer := false }, step1.2 ++ [Action.reportError])
  else
    match lookupConn st1.conns p with
    | none => ({ st1 with processingOffer := false }, step1.2)
    | some pc =>
      if pc.sig != SigState.stable && pc.sig != SigState.haveRemoteOffer then
        if pc.sig = .haveLocalOffer ∧ msg.hasScreen then
          let st2 := { st1 with conns := removeConn st1.conns p }
          let r := createPeerConnection st2 p false
          ({ r.1 with processingOffer := false },
           step1.2 ++ [Action.closeConn p] ++ r.2 ++ [Action.scheduleRetry 1000])
        else
          ({ st1 with processingOffer := false }, step1.2)
      else
        let rollbackActs := if pc.sig = .haveLocalOffer then [Action.rollback p] else []
        ({ st1 with conns := applyAnswerRound st1.conns p, processingOffer := false },
         step1.2 ++ rollbackActs ++
           [Action.setRemote p, Action.answerCreated p, Action.sendAnswer p])

/-- Body of `handleOffer` after the dedup/in-progress entry checks, i.e. the
`try` block of lines 483-1153, with `processingOffer` already set. -/
def processOffer (st : State) (msg : OfferData) : State × List Action :=
  let p := msg.src
  if msg.hasScreen ∧ st.localSharing then
    conflictBranch st p
  else
    match screenPreStep st p msg with
    | .halt r => r
    | .next st1 =>
      if msg.msgType = some "request-stream" ∧ st1.localSharing then
        streamRequestBranch st1 p
      else if msg.msgType = some "stopped-sharing" then
        stoppedSharingBranch st1 p
      else if msg.msgType = some "pre-screen-share" then
        preShareBranch st1 p msg
      else
        normalBranch st1 p msg

/-- Entry of `handleOffer` once the id has been recorded (lines 474-481):
an offer arriving while another is being processed only schedules a 500 ms
retry of itself. -/
def handleOfferBody (st : State) (msg : OfferData) : State × List Action :=
  if st.processingOffer then
    (st, [Action.scheduleRetry 500])
  else
    processOffer { st with processingOffer := true } msg

/-- `handleOffer(offerData, offerId)` (lines 458-1154): an already processed
id is skipped outright; a fresh id is recorded *before* any other work. -/
def handleOffer (st : State) (msg : OfferData) (oid : Option String) :
    State × List Action :=
  match oid with
  | some i =>
    if st.processedOfferIds.contains i then (st, [])
    else handleOfferBody { st with processedOfferIds := i :: st.processedOfferIds } msg
  | none => handleOfferBody st msg

/-- The media-engine calls `handleAnswer` decides to make (lines 1174-1212):
nothing without a connection, nothing outside `have-local-offer`, an error
report on a malformed payload, otherwise one `setRemoteDescription`. -/
def answerActions (st : State) (msg : AnswerData) : List Action :=
  match lookupConn st.conns msg.src with
  | none => []
  | some pc =>
    if pc.sig != .haveLocalOffer then []
    else if validSdp msg.sdp = false then [Action.reportError]
    else [Action.setRemote msg.src]

/-- Signaling-state effect of the decided answer actions. -/
def applyAnswerEffect (st : State) (msg : AnswerData) (acts : List Action) : State :=
  if acts.contains (Action.setRemote msg.src) then
    { st with conns := setSig st.conns msg.src .stable }
  else st

/-- `handleAnswer(answerData, answerId)` (lines 1159-1216): the id is checked
against and recorded in `processedAnswerIds` before any state checks. -/
def handleAnswer (st : State) (msg : AnswerData) (aid : Option String) :
    State × List Action :=
  match aid with
  | some i =>
    if st.processedAnswerIds.contains i then (st, [])
    else
      let st1 := { st with processedAnswerIds := i :: st.processedAnswerIds }
      let acts := answerActions st1 msg
      (applyAnswerEffect st1 msg acts, acts)
  | none =>
    let acts := answerActions st msg
    (applyAnswerEffect st msg acts, acts)

/-- `handleIceCandidate(candidateData)` (lines 1219-1229): the candidate is
applied immediately when a connection exists and dropped otherwise — this
engine keeps no candidate buffer. -/
def iceCandidateApplied (st : State) (src : String) (hasCandidate : Bool) : Bool :=
  (lookupConn st.conns src).isSome && hasCandidate

/-- `oniceconnectionstatechange` of this engine (lines 196-208): every ICE
failure only triggers an in-place `restartIce()`; no failure count is kept. -/
def onIceStateChange (ice : IceConnState) : List Action :=
  if ice = .failed then [Action.restartIce] else []

/-- `const shouldInitiate = userId.current > peerId` (line 1499, also used at
lines 240, 2121, 2151, 2233, 2436): the lexicographically greater id is the
initiator. -/
def shouldInitiate (myId peerId : String) : Bool :=
  decide (peerId < myId)

/-- Per-peer step of the `users` listener (lines 1497-1509): connect to a
newly seen peer, initiating exactly when our id is the greater one. -/
def connectionAttempt (st : State) (peerId : String) : State × List Action :=
  match lookupConn st.conns peerId with
  | none => createPeerConnection st peerId (shouldInitiate st.myId peerId)
  | some pc =>
    if pc.conn = .failed ∨ pc.conn = .closed then
      createPeerConnection st peerId (shouldInitiate st.myId peerId)
    else (st, [])

/-- The signaling-dispatch view used to reason about deferred offers: the
engine refs plus the multiset of `setTimeout` retries of `handleOffer` that
have been scheduled but have not yet fired.  Because every synchronous
return of the handler body runs the `finally` that clears
`processingOffer`, the engine is busy at an arrival only while an earlier
invocation is suspended at one of its `await` points. -/
structure Dispatch where
  engine : State
  pendingRetries : List (OfferData × Option String)
deriving DecidableEq

/-- Arrival of one offer message at `handleOffer`, with scheduled retries
recorded in the dispatch view: an offer deferred by the concurrency guard
(line 477, reachable only while an earlier invocation is suspended at an
`await`) appends its own retry, and a body run that ends in one of the
recreate-and-retry branches (lines 594-598, 1030-1033) likewise leaves a
pending retry of the same message. -/
def onOfferArrival (d : Dispatch) (msg : OfferData) (oid : Option String) : Dispatch :=
  match oid with
  | some i =>
    if d.engine.processedOfferIds.contains i then d
    else
      let st := { d.engine with processedOfferIds := i :: d.engine.processedOfferIds }
      if st.processingOffer then
        { engine := st, pendingRetries := d.pendingRetries ++ [(msg, some i)] }
      else
        let r := processOffer { st with processingOffer := true } msg
        { engine := r.1,
          pendingRetries :=
            d.pendingRetries ++
              (if r.2.contains (Action.scheduleRetry 1000) then [(msg, some i)] else []) }
  | none =>
    if d.engine.processingOffer then
      { engine := d.engine, pendingRetries := d.pendingRetries ++ [(msg, none)] }
    else
      let r := processOffer { d.engine with processingOffer := true } msg
      { engine := r.1,
        pendingRetries :=
          d.pendingRetries ++
            (if r.2.contains (Action.scheduleRetry 1000) then [(msg, none)] else []) }

/-- `` `${userId.current}-${Date.now()}` `` (line 1955): the coordination id
minted by one `shareScreen` call. -/
def coordinationId (uid : String) (now : Nat) : String :=
  uid ++ "-" ++ Nat.repr now

/-- The completion test of the acknowledgment listener (line 1974):
`Object.keys(acks).length >= peerIds.length`. -/
def acksComplete (acks notified : Finset String) : Bool :=
  decide (notified.card ≤ acks.card)

/-- The connection-state snapshot `shareScreen` reads per peer. -/
structure SharePC where
  conn : ConnState
  ice : IceConnState
  sig : SigState
deriving DecidableEq

/-- Events emitted by one `shareScreen()` call, in program order. -/
inductive SSEvent where
  | coordIntent (coordId : String)
  | preShare (target : String) (coordId : String)
  | awaitAcksOrTimeout (coordId : String) (timeoutMs : Nat)
  | closeConn (peer : String)
  | displayMedia
  | setStreamingFlag
  | createConn (peer : String) (isInitiator : Bool)
  | preSharingOffer (target : String)
  | addTracks (peer : String)
  | screenOffer (target : String)
deriving DecidableEq

/-- The `peersNeedingInitiation` filter of `ensureConnections` (lines
2095-2102). -/
def needsInit (s : SharePC) : Bool :=
  (s.conn == ConnState.new || s.ice == IceConnState.new) && s.sig == SigState.stable

/-- The problematic-connection filter of `ensureConnections` (lines
2137-2142). -/
def problematic (s : SharePC) : Bool :=
  s.conn == ConnState.failed || s.conn == ConnState.disconnected ||
    s.ice == IceConnState.failed || s.sig == SigState.haveLocalOffer

/-- Signaling state a connection is observed in after the recreation pass
(a recreated connection is fresh and stable). -/
def sigAfter (s : SharePC) : SigState :=
  if needsInit s || problematic s then .stable else s.sig

/-- `ensureConnections` (lines 2084-2303) over the connection map it reads
at its start: recreate fresh ("new") and problematic connections, reuse the
rest, then send a plain pre-sharing offer to every peer we should initiate
toward whose connection is stable. -/
def ensureEvents (myId : String) (l : List (String × SharePC)) : List SSEvent :=
  if l.isEmpty then []
  else
    ((l.filter (fun e => needsInit e.2)).map
        (fun e => [SSEvent.closeConn e.1, SSEvent.createConn e.1 (shouldInitiate myId e.1)])).flatten
      ++ ((l.filter (fun e => !needsInit e.2 && problematic e.2)).map
        (fun e => [SSEvent.closeConn e.1, SSEvent.createConn e.1 (shouldInitiate myId e.1)])).flatten
      ++ l.filterMap (fun e =>
        if shouldInitiate myId e.1 && (sigAfter e.2 == SigState.stable) then
          some (SSEvent.preSharingOffer e.1)
        else none)

/-- The `canAddTracks` test of `addTracksToConnection` (lines 2315-2320). -/
def canAddTracks (s : SharePC) : Bool :=
  s.sig == SigState.stable || s.conn == ConnState.connecting ||
    s.conn == ConnState.connected || s.ice == IceConnState.checking ||
    s.ice == IceConnState.connected

/-- The per-peer track negotiation of `shareScreen` (lines 2309-2445): when
tracks can be added, they are added and a `hasScreen` offer is sent;
otherwise, after the retries are exhausted, a new connection is created as a
last resort. -/
def trackEvents (myId : String) (l : List (String × SharePC)) : List SSEvent :=
  (l.map (fun e =>
    if canAddTracks e.2 then [SSEvent.addTracks e.1, SSEvent.screenOffer e.1]
    else [SSEvent.createConn e.1 (shouldInitiate myId e.1)])).flatten

/-- `shareScreen()` (lines 1940-2453) as the ordered list of events of one
call.  `peerSharing` is the `isSharing` view of `peerStreamsWithData`,
`conns0` the keys of `peerConnections.current` at entry.  The function
re-reads the connection map after its `await` points; `connsEnsure` and
`connsTrack` are those two re-reads (in a strictly sequential execution of
the coordinated branch both are `[]`, because the branch has just closed and
deleted every connection; concurrent listeners may repopulate the map). -/
def shareScreen (myId : String) (peerSharing : List (String × Bool))
    (conns0 : List String) (now : Nat)
    (connsEnsure connsTrack : List (String × SharePC)) : List SSEvent :=
  let sharingCount := (peerSharing.filter (fun e => e.2)).length
  if 0 < sharingCount then
    let cid := coordinationId myId now
    [SSEvent.coordIntent cid]
      ++ conns0.map (fun p => SSEvent.preShare p cid)
      ++ [SSEvent.awaitAcksOrTimeout cid 5000]
      ++ conns0.map SSEvent.closeConn
      ++ [SSEvent.displayMedia, SSEvent.setStreamingFlag]
      ++ ensureEvents myId connsEnsure
      ++ trackEvents myId connsTrack
  else
    [SSEvent.displayMedia, SSEvent.setStreamingFlag]
      ++ ensureEvents myId connsEnsure
      ++ trackEvents myId connsTrack

/-- Events that issue (or directly schedule) a renegotiation offer. -/
def isOfferEvent : SSEvent → Bool
  | .preSharingOffer _ => true
  | .screenOffer _ => true
  | .createConn _ isInitiator => isInitiator
  | _ => false

/-- Events that create a fresh peer connection. -/
def isCreateEvent : SSEvent → Bool
  | .createConn _ _ => true
  | _ => false

/-- Events that add local screen tracks to a connection. -/
def isTrackAddEvent : SSEvent → Bool
  | .addTracks _ => true
  | _ => false

end FB

namespace WS

/-- Actions of the socket-based engine (`useWebRTC.ts`). -/
inductive Act where
  | restartIce
  | recreateConnection
  | applyCand (c : String)
deriving DecidableEq

/-- The per-peer `streamMetadata` counter `iceFailures`. -/
structure IceMeta where
  iceFailures : Nat
deriving DecidableEq

/-- `Math.min(1000 * Math.pow(2, failures - 1), 8000)` (line 820). -/
def backoffDelay (failures : Nat) : Nat :=
  min (1000 * 2 ^ (failures - 1)) 8000

/-- A `setTimeout` callback scheduled by the ICE-failure handler; it runs
only if the peer's connection object is still the current one. -/
structure Deferred where
  delayMs : Nat
  onlyIfSamePC : Bool
  acts : List Act
deriving DecidableEq

/-- The `iceConnectionState === 'failed'` branch of
`oniceconnectionstatechange` (lines 806-838): increment the per-peer failure
count and schedule, after exponential backoff, an ICE restart — plus, from
the third consecutive failure on, a full connection recreation. -/
def onIceFailed (m : IceMeta) : IceMeta × Deferred :=
  let failures := m.iceFailures + 1
  ({ iceFailures := failures },
   { delayMs := backoffDelay failures,
     onlyIfSamePC := true,
     acts := Act.restartIce ::
       (if 3 ≤ failures then [Act.recreateConnection] else []) })

/-- The state reached after `n + 1` consecutive ICE failures starting from a
fresh counter (the counter is reset to 0 whenever `createPeerConnection`
rebuilds the connection, lines 756-765). -/
def nthFailure : Nat → IceMeta × Deferred
  | 0 => onIceFailed ⟨0⟩
  | n + 1 => onIceFailed (nthFailure n).1

/-- The slice of the socket engine's per-peer state that
`handleIceCandidate` (lines 1256-1321) reads and writes: whether
`peerConnections.current[peerId]` exists, whether its remote description is
set, and the `pendingCandidates.current[peerId]` buffer. -/
structure CandSt where
  pcExists : Bool
  remoteDescSet : Bool
  pending : List String
deriving DecidableEq

/-- `handleIceCandidate`: apply the candidate when the remote description is
set, buffer it when not, and drop it when no connection exists. -/
def handleIceCandidate (st : CandSt) (c : String) : CandSt × List Act :=
  if st.pcExists then
    if st.remoteDescSet then (st, [Act.applyCand c])
    else ({ st with pending := st.pending ++ [c] }, [])
  else (st, [])

/-- Sequential arrival of a list of candidates, accumulating the applied
actions in order. -/
def receiveCands (st : CandSt) (cs : List String) : CandSt × List Act :=
  cs.foldl (fun acc c =>
    let r := handleIceCandidate acc.1 c
    (r.1, acc.2 ++ r.2)) (st, [])

/-- The pending-candidate flush run right after a remote description is
successfully set, in `handleOffer` (lines 1141-1148) and `handleAnswer`
(lines 1216-1223): apply every buffered candidate in arrival order, then
clear the buffer. -/
def flushPending (st : CandSt) : CandSt × List Act :=
  ({ st with remoteDescSet := true, pending := [] },
   st.pending.map Act.applyCand)

end WS

/-! ### Concrete instances used by counterexamples and witnesses -/

/-- An engine state holding one connection to peer `"p"` that sits in
`have-local-offer` while no offer is being processed. -/
def glareState : FB.State :=
  { myId := "m", processedOfferIds := [], processedAnswerIds := [],
    processingOffer := false,
    conns := [("p", ⟨.haveLocalOffer, .connecting, .checking⟩)],
    localSharing := false, senders := [], peerSharing := [] }

/-- `glareState` while an offer is being processed (`processingOffer` set). -/
def busyState : FB.State := { glareState with processingOffer := true }

/-- A plain SDP offer from `"p"` (no screen-share flag). -/
def plainOfferP : OfferData := ⟨"p", some ⟨"offer", "v=0 p"⟩, none, none, false⟩

/-- A plain SDP offer from `"q"`. -/
def plainOfferQ : OfferData := ⟨"q", some ⟨"offer", "v=0 q"⟩, none, none, false⟩

/-- An engine state with a connection to `"a"` in `have-local-offer`. -/
def awaitingAnswerState : FB.State :=
  { myId := "m", processedOfferIds := [], processedAnswerIds := [],
    processingOffer := false,
    conns := [("a", ⟨.haveLocalOffer, .connecting, .checking⟩)],
    localSharing := false, senders := [], peerSharing := [] }

/-- An engine state with a stable connection to `"a"`, ready to process a
fresh offer. -/
def stableState : FB.State :=
  { myId := "m", processedOfferIds := [], processedAnswerIds := ["x"],
    processingOffer := false,
    conns := [("a", ⟨.stable, .connecting, .checking⟩)],
    localSharing := false, senders := [], peerSharing := [] }

/-- A plain SDP offer from `"a"`. -/
def plainOfferA : OfferData := ⟨"a", some ⟨"offer", "v=0 a"⟩, none, none, false⟩

/-- A freshly joined engine for peer `"a"`: no connections, not sharing. -/
def engineA : FB.State := ⟨"a", [], [], false, [], false, [], []⟩

/-- A freshly joined engine for peer `"b"`. -/
def engineB : FB.State := ⟨"b", [], [], false, [], false, [], []⟩

/-- A `pre-screen-share` message from `"b"` carrying coordination id `"k"`. -/
def preShareMsgFromB : OfferData := ⟨"b", none, some "pre-screen-share", some "k", false⟩

/-! ### Helper lemmas: decimal rendering of `Date.now()` timestamps -/

theorem toDigitsCore_eq_digits (fuel : Nat) : ∀ (n : Nat) (acc : List Char),
    0 < n → n < fuel →
    Nat.toDigitsCore 10 fuel n acc
      = ((Nat.digits 10 n).map Nat.digitChar).reverse ++ acc := by
  induction fuel with
  | zero => intro n acc hn hf; omega
  | succ f ih =>
    intro n acc hn hf
    rw [Nat.toDigitsCore]
    by_cases h : n / 10 = 0
    · have hlt : n < 10 := by omega
      have hdig : Nat.digits 10 n = [n] := by
        rw [Nat.digits_def' (by norm_num : 1 < 10) hn, h, Nat.digits_zero,
          Nat.mod_eq_of_lt hlt]
      simp [h, hdig, Nat.mod_eq_of_lt hlt]
    · have hpos : 0 < n / 10 := Nat.pos_of_ne_zero h
      have hlt : n / 10 < f := by
        have := Nat.div_lt_self hn (by norm_num : 1 < 10)
        omega
      simp only [h, if_false]
      rw [ih (n / 10) _ hpos hlt,
        Nat.digits_def' (by norm_num : 1 < 10) hn]
      simp

theorem toDigits_eq_digits (n : Nat) (hn : 0 < n) :
    Nat.toDigits 10 n = ((Nat.digits 10 n).map Nat.digitChar).reverse := by
  have h := toDigitsCore_eq_digits (n + 1) n [] hn (Nat.lt_succ_self n)
  simpa [Nat.toDigits] using h

theorem digitChar_inj_lt : ∀ a : Nat, a < 10 → ∀ b : Nat, b < 10 →
    Nat.digitChar a = Nat.digitChar b → a = b := by decide

theorem map_digitChar_inj : ∀ l1 l2 : List Nat, (∀ x ∈ l1, x < 10) → (∀ x ∈ l2, x < 10) →
    l1.map Nat.digitChar = l2.map Nat.digitChar → l1 = l2 := by
  intro l1
  induction l1 with
  | nil => intro l2 _ _ h; cases l2 <;> simp_all
  | cons a t ih =>
    intro l2 h1 h2 h
    cases l2 with
    | nil => simp_all
    | cons b t2 =>
      simp only [List.map_cons, List.cons.injEq] at h
      have hab := digitChar_inj_lt a (h1 a (by simp)) b (h2 b (by simp)) h.1
      subst hab
      have ht := ih t2 (fun x hx => h1 x (by simp [hx])) (fun x hx => h2 x (by simp [hx])) h.2
      simp [ht]

theorem toDigits_inj {m n : Nat} (h : Nat.toDigits 10 m = Nat.toDigits 10 n) : m = n := by
  have key : ∀ k : Nat, 0 < k → Nat.toDigits 10 k ≠ ['0'] := by
    intro k hk hctr
    rw [toDigits_eq_digits k hk] at hctr
    have hlen := congrArg List.length hctr
    simp at hlen
    have hd := Nat.digits_def' (by norm_num : 1 < 10) hk
    rw [hd] at hlen
    simp at hlen
    have hz : k / 10 = 0 := by
      have hnil : Nat.digits 10 (k / 10) = [] := by exact hlen
      exact Nat.digits_eq_nil_iff_eq_zero.mp hnil
    rw [hd, hz, Nat.digits_zero] at hctr
    simp at hctr
    have : k % 10 = 0 :=
      digitChar_inj_lt (k % 10) (Nat.mod_lt _ (by norm_num)) 0 (by norm_num) hctr
    omega
  rcases Nat.eq_zero_or_pos m with hm | hm
  · rcases Nat.eq_zero_or_pos n with hn | hn
    · omega
    · subst hm; exact absurd h.symm (key n hn)
  · rcases Nat.eq_zero_or_pos n with hn | hn
    · subst hn; exact absurd h (key m hm)
    · rw [toDigits_eq_digits m hm, toDigits_eq_digits n hn] at h
      have hrev := List.reverse_injective h
      have hdig := map_digitChar_inj (Nat.digits 10 m) (Nat.digits 10 n)
        (fun x hx => Nat.digits_lt_base (by norm_num) hx)
        (fun x hx => Nat.digits_lt_base (by norm_num) hx) hrev
      have := congrArg (Nat.ofDigits 10) hdig
      rwa [Nat.ofDigits_digits, Nat.ofDigits_digits] at this

theorem nat_repr_inj {m n : Nat} (h : Nat.repr m = Nat.repr n) : m = n := by
  apply toDigits_inj (m := m) (n := n)
  have hd := congrArg String.data h
  simpa [Nat.repr, List.asString] using hd

theorem coordinationId_inj (uid : String) {n1 n2 : Nat}
    (h : FB.coordinationId uid n1 = FB.coordinationId uid n2) : n1 = n2 := by
  apply nat_repr_inj
  have hd := congrArg String.data h
  simp only [FB.coordinationId, String.data_append] at hd
  apply String.ext
  exact List.append_cancel_left hd

/-! ### Helper lemmas: the offer body never touches the dedup sets -/

theorem createPC_offerIds (st : FB.State) (p : String) (ini : Bool) :
    (FB.createPeerConnection st p ini).1.processedOfferIds = st.processedOfferIds := by
  unfold FB.createPeerConnection
  repeat' split
  all_goals rfl

theorem createPC_answerIds (st : FB.State) (p : String) (ini : Bool) :
    (FB.createPeerConnection st p ini).1.processedAnswerIds = st.processedAnswerIds := by
  unfold FB.createPeerConnection
  repeat' split
  all_goals rfl

theorem conflictBranch_offerIds (st : FB.State) (p : String) :
    (FB.conflictBranch st p).1.processedOfferIds = st.processedOfferIds := by
  simp only [FB.conflictBranch, FB.markPeerSharing]
  simp [createPC_offerIds]

theorem conflictBranch_answerIds (st : FB.State) (p : String) :
    (FB.conflictBranch st p).1.processedAnswerIds = st.processedAnswerIds := by
  simp only [FB.conflictBranch, FB.markPeerSharing]
  simp [createPC_answerIds]

theorem screenPreStep_halt_offerIds (st : FB.State) (p : String) (msg : OfferData)
    (r : FB.State × List FB.Action) (h : FB.screenPreStep st p msg = .halt r) :
    r.1.processedOfferIds = st.processedOfferIds ∧
      r.1.processedAnswerIds = st.processedAnswerIds := by
  simp only [FB.screenPreStep, FB.resetAndRecreateConnection] at h
  split at h
  · split at h
    · split at h
      · cases h
        simp [createPC_offerIds, createPC_answerIds]
      · cases h
    · cases h
  · cases h

theorem screenPreStep_next_offerIds (st : FB.State) (p : String) (msg : OfferData)
    (st1 : FB.State) (h : FB.screenPreStep st p msg = .next st1) :
    st1.processedOfferIds = st.processedOfferIds ∧
      st1.processedAnswerIds = st.processedAnswerIds := by
  simp only [FB.screenPreStep, FB.resetAndRecreateConnection] at h
  split at h
  · split at h
    · split at h
      · cases h
      · cases h
        simp [FB.markPeerSharing]
    · cases h
      simp [FB.markPeerSharing]
  · cases h
    simp

theorem streamRequestBranch_offerIds (st : FB.State) (p : String) :
    (FB.streamRequestBranch st p).1.processedOfferIds = st.processedOfferIds := by
  simp only [FB.streamRequestBranch]
  repeat' split
  all_goals first | rfl | simp [createPC_offerIds]

theorem streamRequestBranch_answerIds (st : FB.State) (p : String) :
    (FB.streamRequestBranch st p).1.processedAnswerIds = st.processedAnswerIds := by
  simp only [FB.streamRequestBranch]
  repeat' split
  all_goals first | rfl | simp [createPC_answerIds]

theorem preShareBranch_offerIds (st : FB.State) (p : String) (msg : OfferData) :
    (FB.preShareBranch st p msg).1.processedOfferIds = st.processedOfferIds ∧
      (FB.preShareBranch st p msg).1.processedAnswerIds = st.processedAnswerIds := by
  simp only [FB.preShareBranch]
  repeat' split
  all_goals simp

theorem normalBranch_offerIds (st : FB.State) (p : String) (msg : OfferData) :
    (FB.normalBranch st p msg).1.processedOfferIds = st.processedOfferIds := by
  simp only [FB.normalBranch]
  repeat' split
  all_goals first | rfl | simp [createPC_offerIds]

theorem normalBranch_answerIds (st : FB.State) (p : String) (msg : OfferData) :
    (FB.normalBranch st p msg).1.processedAnswerIds = st.processedAnswerIds := by
  simp only [FB.normalBranch]
  repeat' split
  all_goals first | rfl | simp [createPC_answerIds]

theorem processOffer_ids (st : FB.State) (msg : OfferData) :
    (FB.processOffer st msg).1.processedOfferIds = st.processedOfferIds ∧
      (FB.processOffer st msg).1.processedAnswerIds = st.processedAnswerIds := by
  unfold FB.processOffer
  split
  · exact ⟨conflictBranch_offerIds st msg.src, conflictBranch_answerIds st msg.src⟩
  · rcases hs : FB.screenPreStep st msg.src msg with r | st1 <;> simp only [hs]
    · exact screenPreStep_halt_offerIds st msg.src msg r hs
    · have h1 := screenPreStep_next_offerIds st msg.src msg st1 hs
      split
      · exact ⟨(streamRequestBranch_offerIds st1 msg.src).trans h1.1,
          (streamRequestBranch_answerIds st1 msg.src).trans h1.2⟩
      · split
        · simp only [FB.stoppedSharingBranch, FB.markPeerStopped]
          exact ⟨h1.1, h1.2⟩
        · split
          · exact ⟨(preShareBranch_offerIds st1 msg.src msg).1.trans h1.1,
              (preShareBranch_offerIds st1 msg.src msg).2.trans h1.2⟩
          · exact ⟨(normalBranch_offerIds st1 msg.src msg).trans h1.1,
              (normalBranch_answerIds st1 msg.src msg).trans h1.2⟩

theorem handleOfferBody_ids (st : FB.State) (msg : OfferData) :
    (FB.handleOfferBody st msg).1.processedOfferIds = st.processedOfferIds ∧
      (FB.handleOfferBody st msg).1.processedAnswerIds = st.processedAnswerIds := by
  unfold FB.handleOfferBody
  split
  · exact ⟨rfl, rfl⟩
  · exact processOffer_ids { st with processingOffer := true } msg

theorem handleOffer_skip (st : FB.State) (msg : OfferData) (i : String)
    (h : st.processedOfferIds.contains i = true) :
    FB.handleOffer st msg (some i) = (st, []) := by
  have hm : i ∈ st.processedOfferIds := by simpa using h
  simp [FB.handleOffer, hm]

theorem handleOffer_fresh (st : FB.State) (msg : OfferData) (i : String)
    (hm : i ∉ st.processedOfferIds) :
    FB.handleOffer st msg (some i)
      = FB.handleOfferBody { st with processedOfferIds := i :: st.processedOfferIds } msg := by
  simp [FB.handleOffer, hm]

theorem handleOffer_records (st : FB.State) (msg : OfferData) (i : String) :
    (FB.handleOffer st msg (some i)).1.processedOfferIds.contains i = true := by
  by_cases hm : i ∈ st.processedOfferIds
  · rw [handleOffer_skip st msg i (by simpa using hm)]
    simpa using hm
  · rw [handleOffer_fresh st msg i hm, (handleOfferBody_ids _ msg).1]
    simp

theorem handleOffer_mono (st : FB.State) (msg : OfferData) (oid : Option String)
    (j : String) (h : st.processedOfferIds.contains j = true) :
    (FB.handleOffer st msg oid).1.processedOfferIds.contains j = true := by
  cases oid with
  | none =>
    show ((FB.handleOfferBody st msg).1.processedOfferIds.contains j = true)
    rw [(handleOfferBody_ids st msg).1]
    exact h
  | some i =>
    by_cases hm : i ∈ st.processedOfferIds
    · rw [handleOffer_skip st msg i (by simpa using hm)]
      exact h
    · rw [handleOffer_fresh st msg i hm, (handleOfferBody_ids _ msg).1]
      have hj : j ∈ st.processedOfferIds := by simpa using h
      simp [hj]

theorem handleOffer_answerIds (st : FB.State) (msg : OfferData) (oid : Option String) :
    (FB.handleOffer st msg oid).1.processedAnswerIds = st.processedAnswerIds := by
  cases oid with
  | none => exact (handleOfferBody_ids st msg).2
  | some i =>
    by_cases hm : i ∈ st.processedOfferIds
    · rw [handleOffer_skip st msg i (by simpa using hm)]
    · rw [handleOffer_fresh st msg i hm]
      exact (handleOfferBody_ids _ msg).2

theorem handleAnswer_offerIds (st : FB.State) (msg : AnswerData) (aid : Option String) :
    (FB.handleAnswer st msg aid).1.processedOfferIds = st.processedOfferIds := by
  simp only [FB.handleAnswer, FB.applyAnswerEffect]
  repeat' split
  all_goals rfl

theorem processOffer_plain (st : FB.State) (msg : OfferData)
    (hhs : msg.hasScreen = false) (hmt : msg.msgType = none) :
    FB.processOffer st msg = FB.normalBranch st msg.src msg := by
  simp [FB.processOffer, FB.screenPreStep, hhs, hmt]

theorem normalBranch_happy (st : FB.State) (msg : OfferData) (pc : PCInfo)
    (hlk : lookupConn st.conns msg.src = some pc)
    (hc1 : pc.conn ≠ ConnState.closed) (hc2 : pc.conn ≠ ConnState.failed)
    (hsig : pc.sig = SigState.stable) (hsdp : validSdp msg.sdp = true) :
    FB.normalBranch st msg.src msg
      = ({ st with conns := FB.applyAnswerRound st.conns msg.src, processingOffer := false },
         [FB.Action.setRemote msg.src, FB.Action.answerCreated msg.src,
          FB.Action.sendAnswer msg.src]) := by
  simp [FB.normalBranch, hlk, hsdp, hc1, hc2, hsig]

/-! ### Claim theorems -/

/-- Claim C10: when `handleOffer` receives an offer with an id while another
offer is being processed, it records the id in the processed-offer set and
only schedules the 500 ms retry; since any invocation whose id is already
recorded returns immediately, the scheduled retry — and every later replay —
performs no `setRemoteDescription`/`createAnswer` work for that offer. -/
theorem claim10_deferred_offer_never_applied (st : FB.State) (msg : OfferData) (i : String)
    (hproc : st.processingOffer = true)
    (hfresh : st.processedOfferIds.contains i = false) :
    FB.handleOffer st msg (some i)
      = ({ st with processedOfferIds := i :: st.processedOfferIds },
         [FB.Action.scheduleRetry 500])
    ∧ (∀ st2 : FB.State, st2.processedOfferIds.contains i = true →
        ∀ msg2 : OfferData, FB.handleOffer st2 msg2 (some i) = (st2, []))
    ∧ FB.handleOffer { st with processedOfferIds := i :: st.processedOfferIds } msg (some i)
      = ({ st with processedOfferIds := i :: st.processedOfferIds }, []) := by
  have hm : i ∉ st.processedOfferIds := by simpa using hfresh
  refine ⟨?_, ?_, ?_⟩
  · rw [handleOffer_fresh st msg i hm]
    simp [FB.handleOfferBody, hproc]
  · intro st2 h2 msg2
    exact handleOffer_skip st2 msg2 i h2
  · exact handleOffer_skip _ msg i (by simp)

/-- Witness for C10 at a concrete busy state and offer. -/
theorem claim10_witness :
    busyState.processingOffer = true
    ∧ busyState.processedOfferIds.contains "i1" = false
    ∧ (FB.handleOffer busyState plainOfferQ (some "i1")
        = ({ busyState with processedOfferIds := "i1" :: busyState.processedOfferIds },
           [FB.Action.scheduleRetry 500])
      ∧ (∀ st2 : FB.State, st2.processedOfferIds.contains "i1" = true →
          ∀ msg2 : OfferData, FB.handleOffer st2 msg2 (some "i1") = (st2, []))
      ∧ FB.handleOffer { busyState with processedOfferIds := "i1" :: busyState.processedOfferIds }
          plainOfferQ (some "i1")
        = ({ busyState with processedOfferIds := "i1" :: busyState.processedOfferIds }, [])) :=
  ⟨rfl, rfl, claim10_deferred_offer_never_applied busyState plainOfferQ "i1" rfl rfl⟩

/-- Claim C3: replaying an offer id yields a single
`setRemoteDescription`/`createAnswer` cycle — the first processable delivery
performs exactly one cycle, every later invocation with the same id performs
none, recorded offer ids are never dropped — and the offer and answer dedup
sets are disjoint in effect: an id recorded as an answer id does not
suppress an offer, `handleOffer` never writes the answer set, and
`handleAnswer` never writes the offer set. -/
theorem claim3_offer_replay_idempotent (st : FB.State) (msg : OfferData) (pc : PCInfo)
    (i : String)
    (hlk : lookupConn st.conns msg.src = some pc)
    (hc1 : pc.conn ≠ ConnState.closed) (hc2 : pc.conn ≠ ConnState.failed)
    (hsig : pc.sig = SigState.stable) (hsdp : validSdp msg.sdp = true)
    (hhs : msg.hasScreen = false) (hmt : msg.msgType = none)
    (hproc : st.processingOffer = false)
    (hfresh : st.processedOfferIds.contains i = false) :
    (FB.handleOffer st msg (some i)).2
      = [FB.Action.setRemote msg.src, FB.Action.answerCreated msg.src,
         FB.Action.sendAnswer msg.src]
    ∧ (∀ st2 : FB.State, st2.processedOfferIds.contains i = true →
        ∀ msg2 : OfferData, FB.handleOffer st2 msg2 (some i) = (st2, []))
    ∧ (FB.handleOffer st msg (some i)).1.processedOfferIds.contains i = true
    ∧ (∀ st2 : FB.State, ∀ msg2 : OfferData, ∀ oid : Option String, ∀ j : String,
        st2.processedOfferIds.contains j = true →
        (FB.handleOffer st2 msg2 oid).1.processedOfferIds.contains j = true)
    ∧ (FB.handleOffer { st with processedAnswerIds := i :: st.processedAnswerIds }
        msg (some i)).2
      = [FB.Action.setRemote msg.src, FB.Action.answerCreated msg.src,
         FB.Action.sendAnswer msg.src]
    ∧ (∀ st2 : FB.State, ∀ msg2 : OfferData, ∀ oid : Option String,
        (FB.handleOffer st2 msg2 oid).1.processedAnswerIds = st2.processedAnswerIds)
    ∧ (∀ st2 : FB.State, ∀ amsg : AnswerData, ∀ aid : Option String,
        (FB.handleAnswer st2 amsg aid).1.processedOfferIds = st2.processedOfferIds) := by
  have hm : i ∉ st.processedOfferIds := by simpa using hfresh
  have hrun : ∀ st' : FB.State, st'.conns = st.conns → st'.processingOffer = false →
      i ∉ st'.processedOfferIds →
      (FB.handleOffer st' msg (some i)).2
        = [FB.Action.setRemote msg.src, FB.Action.answerCreated msg.src,
           FB.Action.sendAnswer msg.src] := by
    intro st' hcs hpr hm'
    rw [handleOffer_fresh st' msg i hm']
    have hbody :
        FB.handleOfferBody { st' with processedOfferIds := i :: st'.processedOfferIds } msg
          = FB.processOffer
              { st' with processedOfferIds := i :: st'.processedOfferIds,
                         processingOffer := true } msg := by
      simp [FB.handleOfferBody, hpr]
    rw [hbody,
      processOffer_plain
        { st' with processedOfferIds := i :: st'.processedOfferIds, processingOffer := true }
        msg hhs hmt,
      normalBranch_happy
        { st' with processedOfferIds := i :: st'.processedOfferIds, processingOffer := true }
        msg pc (by simpa [hcs] using hlk) hc1 hc2 hsig hsdp]
  refine ⟨hrun st rfl hproc hm, ?_, handleOffer_records st msg i, ?_, ?_, ?_, ?_⟩
  · intro st2 h2 msg2
    exact handleOffer_skip st2 msg2 i h2
  · intro st2 msg2 oid j hj
    exact handleOffer_mono st2 msg2 oid j hj
  · exact hrun { st with processedAnswerIds := i :: st.processedAnswerIds } rfl hproc hm
  · intro st2 msg2 oid
    exact handleOffer_answerIds st2 msg2 oid
  · intro st2 amsg aid
    exact handleAnswer_offerIds st2 amsg aid

/-- Witness for C3 at a concrete stable state and plain offer, using an id
that already sits in the answer dedup set. -/
theorem claim3_witness :
    lookupConn stableState.conns "a"
      = some ⟨SigState.stable, ConnState.connecting, IceConnState.checking⟩
    ∧ validSdp plainOfferA.sdp = true
    ∧ stableState.processedOfferIds.contains "x" = false
    ∧ stableState.processedAnswerIds.contains "x" = true
    ∧ (FB.handleOffer stableState plainOfferA (some "x")).2
      = [FB.Action.setRemote "a", FB.Action.answerCreated "a", FB.Action.sendAnswer "a"] :=
  ⟨by decide, by decide, by decide, by decide,
    (claim3_offer_replay_idempotent stableState plainOfferA
      ⟨SigState.stable, ConnState.connecting, IceConnState.checking⟩ "x"
      (by decide) (by decide) (by decide) rfl rfl rfl rfl rfl rfl).1⟩

/-- Counterexample to C5 as stated: a connection for the sender exists and
sits in `have-local-offer`, yet the answer is dropped without
`setRemoteDescription` because its SDP payload is absent — so "applies
setRemoteDescription if and only if a peer connection exists and its
signalingState equals have-local-offer" fails in the "if" direction. -/
theorem claim5_counterexample :
    (∃ pc, lookupConn awaitingAnswerState.conns "a" = some pc
      ∧ pc.sig = SigState.haveLocalOffer)
    ∧ awaitingAnswerState.processedAnswerIds = []
    ∧ (FB.handleAnswer awaitingAnswerState ⟨"a", none⟩ (some "y")).2.contains
        (FB.Action.setRemote "a") = false :=
  ⟨⟨⟨SigState.haveLocalOffer, ConnState.connecting, IceConnState.checking⟩,
    by decide, rfl⟩, rfl, by decide⟩

/-- Claim C5 (amended): `handleAnswer` applies `setRemoteDescription` if and
only if a peer connection for the sender exists, its signalingState is
`have-local-offer`, the answer id has not been processed before, and the SDP
payload is well formed; whenever it does not apply it, the connection map is
left untouched. -/
theorem claim5_answer_acceptance (st : FB.State) (msg : AnswerData) (aid : Option String) :
    ((FB.handleAnswer st msg aid).2.contains (FB.Action.setRemote msg.src) = true
      ↔ ((∃ pc, lookupConn st.conns msg.src = some pc ∧ pc.sig = SigState.haveLocalOffer)
          ∧ validSdp msg.sdp = true
          ∧ (∀ i, aid = some i → st.processedAnswerIds.contains i = false)))
    ∧ ((FB.handleAnswer st msg aid).2.contains (FB.Action.setRemote msg.src) = false →
        (FB.handleAnswer st msg aid).1.conns = st.conns) := by
  have hcore : ((FB.answerActions st msg).contains (FB.Action.setRemote msg.src) = true ↔
      ((∃ pc, lookupConn st.conns msg.src = some pc ∧ pc.sig = SigState.haveLocalOffer)
        ∧ validSdp msg.sdp = true)) := by
    unfold FB.answerActions
    rcases h : lookupConn st.conns msg.src with _ | pc
    · simp [h]
    · simp only [h]
      by_cases hs : pc.sig = SigState.haveLocalOffer
      · by_cases hv : validSdp msg.sdp = true
        · simp [hs, hv]
        · simp [hs, hv]
      · simp [hs]
  have happly : ∀ st' : FB.State, ∀ acts : List FB.Action,
      acts.contains (FB.Action.setRemote msg.src) = false →
      FB.applyAnswerEffect st' msg acts = st' := by
    intro st' acts h
    simp only [FB.applyAnswerEffect, h]
    simp
  cases aid with
  | none =>
    have heq : FB.handleAnswer st msg none
        = (FB.applyAnswerEffect st msg (FB.answerActions st msg), FB.answerActions st msg) := rfl
    rw [heq]
    constructor
    · constructor
      · intro h
        exact ⟨(hcore.mp h).1, (hcore.mp h).2, by simp⟩
      · intro h
        exact hcore.mpr ⟨h.1, h.2.1⟩
    · intro h
      rw [happly st _ h]
  | some i =>
    by_cases hd : i ∈ st.processedAnswerIds
    · have heq : FB.handleAnswer st msg (some i) = (st, []) := by
        simp [FB.handleAnswer, hd]
      rw [heq]
      constructor
      · simp only [List.contains_nil]
        constructor
        · intro h; cases h
        · intro h
          have := h.2.2 i rfl
          simp [hd] at this
      · intro _; rfl
    · have hAA : FB.answerActions { st with processedAnswerIds := i :: st.processedAnswerIds } msg
          = FB.answerActions st msg := by
        unfold FB.answerActions
        rfl
      have heq : FB.handleAnswer st msg (some i)
          = (FB.applyAnswerEffect { st with processedAnswerIds := i :: st.processedAnswerIds }
              msg (FB.answerActions st msg),
             FB.answerActions st msg) := by
        simp [FB.handleAnswer, hd, hAA]
      rw [heq]
      constructor
      · constructor
        · intro h
          refine ⟨(hcore.mp h).1, (hcore.mp h).2, ?_⟩
          intro j hj
          cases hj
          simpa using hd
        · intro h
          exact hcore.mpr ⟨h.1, h.2.1⟩
      · intro h
        rw [happly _ _ h]

/-- Counterexample to C6 as stated: on the third consecutive ICE failure the
socket engine still schedules an in-place `restartIce()` — recreation is
scheduled *in addition to*, not instead of, another restart (and the room
membership is not consulted on this path). -/
theorem claim6_counterexample :
    (WS.onIceFailed ⟨2⟩).1.iceFailures = 3
    ∧ WS.Act.restartIce ∈ (WS.onIceFailed ⟨2⟩).2.acts
    ∧ WS.Act.recreateConnection ∈ (WS.onIceFailed ⟨2⟩).2.acts := by
  decide

/-- Claim C6 (amended): the socket engine counts consecutive ICE failures
per peer; the `n+1`-st failure schedules, after exponential backoff
`min(1000·2ⁿ, 8000)` ms and only if the connection object is still the
current one, an in-place ICE restart, and from the third consecutive failure
on additionally a full connection recreation; the Firebase engine reacts to
every ICE failure with a bare restart and keeps no count. -/
theorem claim6_ice_escalation (n : Nat) :
    (WS.nthFailure n).1.iceFailures = n + 1
    ∧ WS.Act.restartIce ∈ (WS.nthFailure n).2.acts
    ∧ (WS.Act.recreateConnection ∈ (WS.nthFailure n).2.acts ↔ 2 ≤ n)
    ∧ (WS.nthFailure n).2.delayMs = min (1000 * 2 ^ n) 8000
    ∧ (WS.nthFailure n).2.onlyIfSamePC = true
    ∧ FB.onIceStateChange IceConnState.failed = [FB.Action.restartIce] := by
  induction n with
  | zero =>
    refine ⟨rfl, ?_, ?_, rfl, rfl, rfl⟩
    · simp [WS.nthFailure, WS.onIceFailed]
    · simp [WS.nthFailure, WS.onIceFailed]
  | succ k ih =>
    have hcount : (WS.nthFailure k).1.iceFailures = k + 1 := ih.1
    refine ⟨?_, ?_, ?_, ?_, ?_, rfl⟩
    · show (WS.onIceFailed (WS.nthFailure k).1).1.iceFailures = k + 1 + 1
      simp [WS.onIceFailed, hcount]
    · show WS.Act.restartIce ∈ (WS.onIceFailed (WS.nthFailure k).1).2.acts
      simp [WS.onIceFailed]
    · show WS.Act.recreateConnection ∈ (WS.onIceFailed (WS.nthFailure k).1).2.acts ↔ 2 ≤ k + 1
      simp only [WS.onIceFailed, hcount]
      by_cases h3 : 3 ≤ k + 1 + 1
      · simp [h3]
        omega
      · simp [h3]
        omega
    · show (WS.onIceFailed (WS.nthFailure k).1).2.delayMs = min (1000 * 2 ^ (k + 1)) 8000
      simp [WS.onIceFailed, WS.backoffDelay, hcount]
    · rfl

/-- Claim C7: in the socket engine, every ICE candidate that arrives while
the sender's connection exists but its remote description is not yet set is
appended to the per-peer `pendingCandidates` buffer — none is applied and
none is discarded — and the flush that runs once the remote description is
set applies exactly the buffered candidates in arrival order and empties the
buffer. -/
theorem claim7_candidate_buffering (st : WS.CandSt) (cs : List String)
    (hpc : st.pcExists = true) (hrd : st.remoteDescSet = false) :
    (WS.receiveCands st cs).1.pending = st.pending ++ cs
    ∧ (WS.receiveCands st cs).2 = []
    ∧ (WS.receiveCands st cs).1.pcExists = true
    ∧ (WS.receiveCands st cs).1.remoteDescSet = false
    ∧ (WS.flushPending (WS.receiveCands st cs).1).2
      = (st.pending ++ cs).map WS.Act.applyCand
    ∧ (WS.flushPending (WS.receiveCands st cs).1).1.pending = [] := by
  have key : ∀ l : List String, ∀ s : WS.CandSt, s.pcExists = true → s.remoteDescSet = false →
      (WS.receiveCands s l).1 = { s with pending := s.pending ++ l }
        ∧ (WS.receiveCands s l).2 = [] := by
    intro l
    induction l with
    | nil =>
      intro s h1 h2
      constructor
      · simp [WS.receiveCands]
      · simp [WS.receiveCands]
    | cons c tl ih =>
      intro s h1 h2
      have hstep : WS.handleIceCandidate s c = ({ s with pending := s.pending ++ [c] }, []) := by
        simp [WS.handleIceCandidate, h1, h2]
      have hrec : WS.receiveCands s (c :: tl)
          = WS.receiveCands { s with pending := s.pending ++ [c] } tl := by
        simp [WS.receiveCands, hstep]
      rw [hrec]
      obtain ⟨ha, hb⟩ := ih { s with pending := s.pending ++ [c] } h1 h2
      constructor
      · rw [ha]; simp
      · exact hb
  obtain ⟨h1, h2⟩ := key cs st hpc hrd
  refine ⟨by rw [h1], h2, by rw [h1]; exact hpc, by rw [h1]; exact hrd, ?_, ?_⟩
  · rw [h1]; rfl
  · rw [h1]; rfl

/-- Witness for C7 with one buffered and two arriving candidates. -/
theorem claim7_witness :
    (WS.receiveCands ⟨true, false, ["c0"]⟩ ["c1", "c2"]).1.pending = ["c0"] ++ ["c1", "c2"]
    ∧ (WS.receiveCands ⟨true, false, ["c0"]⟩ ["c1", "c2"]).2 = []
    ∧ (WS.receiveCands ⟨true, false, ["c0"]⟩ ["c1", "c2"]).1.pcExists = true
    ∧ (WS.receiveCands ⟨true, false, ["c0"]⟩ ["c1", "c2"]).1.remoteDescSet = false
    ∧ (WS.flushPending (WS.receiveCands ⟨true, false, ["c0"]⟩ ["c1", "c2"]).1).2
      = (["c0"] ++ ["c1", "c2"]).map WS.Act.applyCand
    ∧ (WS.flushPending (WS.receiveCands ⟨true, false, ["c0"]⟩ ["c1", "c2"]).1).1.pending = [] :=
  claim7_candidate_buffering ⟨true, false, ["c0"]⟩ ["c1", "c2"] rfl rfl

/-- Claim C1: for a pair of distinct peers with no prior connection, the
room listener makes exactly the peer with the lexicographically greater id
create its peer connection as initiator and schedule the first offer; the
smaller-id peer never schedules one. -/
theorem claim1_initiator_election (stA stB : FB.State) (a b : String) (hab : a ≠ b)
    (hma : stA.myId = a) (hmb : stB.myId = b)
    (hfa : lookupConn stA.conns b = none) (hfb : lookupConn stB.conns a = none) :
    ((FB.Action.scheduleInitialOffer b ∈ (FB.connectionAttempt stA b).2) ↔ b < a)
    ∧ ((FB.Action.scheduleInitialOffer a ∈ (FB.connectionAttempt stB a).2) ↔ a < b)
    ∧ ¬(FB.Action.scheduleInitialOffer b ∈ (FB.connectionAttempt stA b).2
        ∧ FB.Action.scheduleInitialOffer a ∈ (FB.connectionAttempt stB a).2)
    ∧ (FB.Action.scheduleInitialOffer b ∈ (FB.connectionAttempt stA b).2
        ∨ FB.Action.scheduleInitialOffer a ∈ (FB.connectionAttempt stB a).2) := by
  have key : ∀ st : FB.State, ∀ q : String, lookupConn st.conns q = none →
      ((FB.Action.scheduleInitialOffer q ∈ (FB.connectionAttempt st q).2) ↔ q < st.myId) := by
    intro st q hq
    unfold FB.connectionAttempt
    rw [hq]
    unfold FB.createPeerConnection
    rw [hq]
    unfold FB.createPCActions FB.shouldInitiate
    by_cases hlt : q < st.myId <;> rcases hls : st.localSharing <;> simp [hlt, hls]
  have kA := key stA b hfa
  have kB := key stB a hfb
  rw [hma] at kA
  rw [hmb] at kB
  refine ⟨kA, kB, ?_, ?_⟩
  · rintro ⟨h1, h2⟩
    exact absurd (kB.mp h2) (lt_asymm (kA.mp h1))
  · rcases lt_or_gt_of_ne hab with h | h
    · right; exact kB.mpr h
    · left; exact kA.mpr h

/-- Witness for C1: peers `"b"` and `"a"`; the engine of `"b"` schedules the
first offer toward `"a"` and the engine of `"a"` schedules none toward
`"b"`. -/
theorem claim1_witness :
    ("b" : String) ≠ "a"
    ∧ ((FB.Action.scheduleInitialOffer "a" ∈ (FB.connectionAttempt engineB "a").2) ↔ "a" < "b")
    ∧ ((FB.Action.scheduleInitialOffer "b" ∈ (FB.connectionAttempt engineA "b").2) ↔ "b" < "a")
    ∧ ¬(FB.Action.scheduleInitialOffer "a" ∈ (FB.connectionAttempt engineB "a").2
        ∧ FB.Action.scheduleInitialOffer "b" ∈ (FB.connectionAttempt engineA "b").2)
    ∧ (FB.Action.scheduleInitialOffer "a" ∈ (FB.connectionAttempt engineB "a").2
        ∨ FB.Action.scheduleInitialOffer "b" ∈ (FB.connectionAttempt engineA "b").2) :=
  ⟨by decide,
    claim1_initiator_election engineB engineA "b" "a" (by decide) rfl rfl rfl rfl⟩

/-- Claim C9: a peer receiving a PreShareIntent (a `pre-screen-share`
message with a coordination id) always acknowledges first — immediately and
with nothing else when it is not itself sharing — and a receiving peer that
is itself sharing decides by raw string comparison of the two peer ids:
it yields exactly when its own id is the lower one, so for distinct ids it
never happens that both sides yield or both sides proceed. -/
theorem claim9_preshare_conflict (st : FB.State) (msg : OfferData) (c : String)
    (hhs : msg.hasScreen = false) (hmt : msg.msgType = some "pre-screen-share")
    (hc : msg.coordinationId = some c) (hne : st.myId ≠ msg.src) :
    FB.processOffer st msg
      = ({ st with processingOffer := false },
         FB.preShareResponse st.myId msg.src st.localSharing c)
    ∧ (st.localSharing = false →
        FB.preShareResponse st.myId msg.src st.localSharing c = [FB.Action.sendAck msg.src c])
    ∧ FB.Action.sendAck msg.src c ∈ FB.preShareResponse st.myId msg.src st.localSharing c
    ∧ ((FB.Action.yieldToPeer msg.src ∈ FB.preShareResponse st.myId msg.src true c)
        ↔ st.myId < msg.src)
    ∧ ¬((FB.Action.yieldToPeer msg.src ∈ FB.preShareResponse st.myId msg.src true c)
        ∧ (FB.Action.yieldToPeer st.myId ∈ FB.preShareResponse msg.src st.myId true c))
    ∧ ((FB.Action.yieldToPeer msg.src ∈ FB.preShareResponse st.myId msg.src true c)
        ∨ (FB.Action.yieldToPeer st.myId ∈ FB.preShareResponse msg.src st.myId true c)) := by
  have hne1 : ("pre-screen-share" : String) ≠ "request-stream" := by decide
  have hne2 : ("pre-screen-share" : String) ≠ "stopped-sharing" := by decide
  have hyield : ∀ x y : String,
      (FB.Action.yieldToPeer y ∈ FB.preShareResponse x y true c) ↔ x < y := by
    intro x y
    by_cases hlt : x < y <;> simp [FB.preShareResponse, hlt]
  refine ⟨?_, ?_, ?_, hyield st.myId msg.src, ?_, ?_⟩
  · simp [FB.processOffer, FB.screenPreStep, hhs, hmt, hc, FB.preShareBranch, hne1, hne2]
  · intro hls
    simp [FB.preShareResponse, hls]
  · simp [FB.preShareResponse]
  · rintro ⟨h1, h2⟩
    exact absurd ((hyield msg.src st.myId).mp h2) (lt_asymm ((hyield st.myId msg.src).mp h1))
  · rcases lt_or_gt_of_ne hne with h | h
    · left; exact (hyield st.myId msg.src).mpr h
    · right; exact (hyield msg.src st.myId).mpr h

/-- Witness for C9: engine `"a"` (not sharing) receiving `"b"`'s
PreShareIntent with coordination id `"k"`. -/
theorem claim9_witness :
    preShareMsgFromB.hasScreen = false
    ∧ preShareMsgFromB.msgType = some "pre-screen-share"
    ∧ preShareMsgFromB.coordinationId = some "k"
    ∧ engineA.myId ≠ preShareMsgFromB.src
    ∧ (FB.processOffer engineA preShareMsgFromB
        = ({ engineA with processingOffer := false },
           FB.preShareResponse engineA.myId preShareMsgFromB.src engineA.localSharing "k")
      ∧ (engineA.localSharing = false →
          FB.preShareResponse engineA.myId preShareMsgFromB.src engineA.localSharing "k"
            = [FB.Action.sendAck preShareMsgFromB.src "k"])
      ∧ FB.Action.sendAck preShareMsgFromB.src "k"
          ∈ FB.preShareResponse engineA.myId preShareMsgFromB.src engineA.localSharing "k"
      ∧ ((FB.Action.yieldToPeer preShareMsgFromB.src
            ∈ FB.preShareResponse engineA.myId preShareMsgFromB.src true "k")
          ↔ engineA.myId < preShareMsgFromB.src)
      ∧ ¬((FB.Action.yieldToPeer preShareMsgFromB.src
            ∈ FB.preShareResponse engineA.myId preShareMsgFromB.src true "k")
          ∧ (FB.Action.yieldToPeer engineA.myId
            ∈ FB.preShareResponse preShareMsgFromB.src engineA.myId true "k"))
      ∧ ((FB.Action.yieldToPeer preShareMsgFromB.src
            ∈ FB.preShareResponse engineA.myId preShareMsgFromB.src true "k")
          ∨ (FB.Action.yieldToPeer engineA.myId
            ∈ FB.preShareResponse preShareMsgFromB.src engineA.myId true "k"))) :=
  ⟨rfl, rfl, rfl, by decide,
    claim9_preshare_conflict engineA preShareMsgFromB "k" rfl rfl rfl (by decide)⟩

/-- Counterexample to C4 as stated: an offer that arrives while the session
with its sender sits in `have-local-offer` — not stable — and that is not a
screen-share update (no other offer being processed) is not deferred at
all: `handleOffer` records its id and returns with no media-engine call and
no scheduled retry, so the dispatcher holds zero pending retries for it and
the recorded id blocks any later delivery — the offer is dropped
permanently, never "deferred until the current negotiation completes". -/
theorem claim4_counterexample :
    glareState.processingOffer = false
    ∧ lookupConn glareState.conns "p"
        = some ⟨SigState.haveLocalOffer, ConnState.connecting, IceConnState.checking⟩
    ∧ plainOfferP.hasScreen = false ∧ plainOfferP.msgType = none
    ∧ validSdp plainOfferP.sdp = true
    ∧ FB.handleOffer glareState plainOfferP (some "i1")
      = ({ glareState with processedOfferIds := ["i1"] }, [])
    ∧ (FB.onOfferArrival ⟨glareState, []⟩ plainOfferP (some "i1")).pendingRetries = [] := by
  decide

/-- Claim C4 (amended): an offer arriving while another offer's processing
is still in flight (`processingOffer` set, i.e. the earlier invocation is
suspended at an `await`) has its id recorded and appends exactly one
scheduled retry of itself to the timer queue — each deferred offer keeps
its own pending timer and none supersedes a previously deferred one — while
an offer arriving on a session whose signaling state is neither `stable`
nor `have-remote-offer` and that is not a screen-share update is dropped
outright: no media-engine work and no deferral. -/
theorem claim4_deferral_behavior (d : FB.Dispatch) (msg : OfferData) (i : String)
    (hproc : d.engine.processingOffer = true)
    (hfresh : d.engine.processedOfferIds.contains i = false) :
    FB.onOfferArrival d msg (some i)
      = { engine := { d.engine with processedOfferIds := i :: d.engine.processedOfferIds },
          pendingRetries := d.pendingRetries ++ [(msg, some i)] }
    ∧ (∀ st : FB.State, ∀ msg2 : OfferData, ∀ pc : PCInfo,
        lookupConn st.conns msg2.src = some pc →
        pc.conn ≠ ConnState.closed → pc.conn ≠ ConnState.failed →
        pc.sig = SigState.haveLocalOffer →
        msg2.hasScreen = false → msg2.msgType = none → validSdp msg2.sdp = true →
        FB.processOffer st msg2 = ({ st with processingOffer := false }, [])) := by
  constructor
  · have hm : i ∉ d.engine.processedOfferIds := by simpa using hfresh
    simp [FB.onOfferArrival, hm, hproc]
  · intro st2 msg2 pc hlk hc1 hc2 hsig hhs hmt hsdp
    rw [processOffer_plain st2 msg2 hhs hmt]
    simp [FB.normalBranch, hlk, hsdp, hc1, hc2, hsig, hhs]

/-- Witness for C4 (amended) at a concrete busy dispatcher. -/
theorem claim4_witness :
    busyState.processingOffer = true
    ∧ busyState.processedOfferIds.contains "i9" = false
    ∧ FB.onOfferArrival ⟨busyState, []⟩ plainOfferQ (some "i9")
      = { engine := { busyState with processedOfferIds := "i9" :: busyState.processedOfferIds },
          pendingRetries := [] ++ [(plainOfferQ, some "i9")] } :=
  ⟨rfl, rfl,
    (claim4_deferral_behavior ⟨busyState, []⟩ plainOfferQ "i9" rfl rfl).1⟩

/-- Claim C2: when `shareScreen()` runs while some other peer is marked
sharing, the emitted event sequence splits into a coordination prefix — the
coordination-intent record, a PreShareIntent carrying the call's
coordination id to every known peer, and the wait for all acknowledgments or
the 5-second timeout — containing no renegotiation offer, with every offer
event strictly after it; the coordination id is fresh (injective in the
call's timestamp), and the count-based completion check equals "every
notified peer acknowledged" whenever the acknowledgments come from notified
peers. -/
theorem claim2_preshare_gating (myId : String) (peerSharing : List (String × Bool))
    (conns0 : List String) (now : Nat)
    (connsEnsure connsTrack : List (String × FB.SharePC)) (q : String)
    (hq : (q, true) ∈ peerSharing) (hother : q ≠ myId) :
    ∃ A B, FB.shareScreen myId peerSharing conns0 now connsEnsure connsTrack = A ++ B
      ∧ (∀ p ∈ conns0, FB.SSEvent.preShare p (FB.coordinationId myId now) ∈ A)
      ∧ FB.SSEvent.awaitAcksOrTimeout (FB.coordinationId myId now) 5000 ∈ A
      ∧ (∀ e ∈ A, FB.isOfferEvent e = false)
      ∧ (∀ m : Nat, FB.coordinationId myId m = FB.coordinationId myId now → m = now)
      ∧ (∀ acks : Finset String, acks ⊆ conns0.toFinset →
          FB.acksComplete acks conns0.toFinset = true → acks = conns0.toFinset) := by
  have hne := hother
  have hcnt : 0 < (peerSharing.filter (fun e => e.2)).length := by
    have hmem : (q, true) ∈ peerSharing.filter (fun e => e.2) :=
      List.mem_filter.mpr ⟨hq, rfl⟩
    exact List.length_pos.mpr (List.ne_nil_of_mem hmem)
  refine ⟨FB.SSEvent.coordIntent (FB.coordinationId myId now)
      :: (conns0.map (fun p => FB.SSEvent.preShare p (FB.coordinationId myId now))
        ++ [FB.SSEvent.awaitAcksOrTimeout (FB.coordinationId myId now) 5000]),
    conns0.map FB.SSEvent.closeConn
      ++ ([FB.SSEvent.displayMedia, FB.SSEvent.setStreamingFlag]
        ++ (FB.ensureEvents myId connsEnsure ++ FB.trackEvents myId connsTrack)),
    ?_, ?_, ?_, ?_, ?_, ?_⟩
  · simp [FB.shareScreen, hcnt, List.append_assoc]
  · intro p hp
    simp only [List.mem_cons, List.mem_append, List.mem_map, List.not_mem_nil, or_false]
    exact Or.inr (Or.inl ⟨p, hp, rfl⟩)
  · simp
  · intro e he
    simp only [List.mem_cons, List.mem_append, List.mem_map, List.not_mem_nil, or_false] at he
    rcases he with rfl | ⟨p, _, rfl⟩ | rfl <;> rfl
  · intro m hm
    exact coordinationId_inj myId hm
  · intro acks hsub hcomp
    exact Finset.eq_of_subset_of_card_le hsub (by simpa [FB.acksComplete] using hcomp)

/-- Witness for C2: `"b"` starts sharing while `"a"` is marked sharing and is
the only known peer. -/
theorem claim2_witness :
    ("a", true) ∈ [("a", true)]
    ∧ ("a" : String) ≠ "b"
    ∧ (∃ A B, FB.shareScreen "b" [("a", true)] ["a"] 1 [] [] = A ++ B
      ∧ (∀ p ∈ ["a"], FB.SSEvent.preShare p (FB.coordinationId "b" 1) ∈ A)
      ∧ FB.SSEvent.awaitAcksOrTimeout (FB.coordinationId "b" 1) 5000 ∈ A
      ∧ (∀ e ∈ A, FB.isOfferEvent e = false)
      ∧ (∀ m : Nat, FB.coordinationId "b" m = FB.coordinationId "b" 1 → m = 1)
      ∧ (∀ acks : Finset String, acks ⊆ (["a"] : List String).toFinset →
          FB.acksComplete acks (["a"] : List String).toFinset = true
            → acks = (["a"] : List String).toFinset)) :=
  ⟨by decide, by decide,
    claim2_preshare_gating "b" [("a", true)] ["a"] 1 [] [] "a" (by decide) (by decide)⟩

/-- Counterexample to C8 as stated: with one known peer `"a"` (and `"a"`
marked sharing), the coordinated `shareScreen` path closes the connection to
`"a"` and proceeds to capture media, but its own event sequence never
recreates a connection for `"a"` and never adds tracks — recreation is not
performed by `shareScreen` for the sessions it closed. -/
theorem claim8_counterexample :
    FB.SSEvent.closeConn "a" ∈ FB.shareScreen "b" [("a", true)] ["a"] 0 [] []
    ∧ FB.SSEvent.displayMedia ∈ FB.shareScreen "b" [("a", true)] ["a"] 0 [] []
    ∧ (FB.shareScreen "b" [("a", true)] ["a"] 0 [] []).all
        (fun e => !FB.isCreateEvent e) = true
    ∧ (FB.shareScreen "b" [("a", true)] ["a"] 0 [] []).all
        (fun e => !FB.isTrackAddEvent e) = true := by
  decide

/-- Claim C8 (amended): after the pre-share coordination completes or times
out, `shareScreen` closes every previously known peer connection before any
track is added or any offer sent — the closes all sit in an event prefix
free of track-add, offer, and connection-creation events — and in a strictly
sequential execution (both later map re-reads empty, as the branch itself
emptied the map) the call creates no connection and adds no tracks at all. -/
theorem claim8_close_before_tracks (myId : String) (peerSharing : List (String × Bool))
    (conns0 : List String) (now : Nat)
    (connsEnsure connsTrack : List (String × FB.SharePC)) (q : String)
    (hq : (q, true) ∈ peerSharing) :
    ∃ A B, FB.shareScreen myId peerSharing conns0 now connsEnsure connsTrack = A ++ B
      ∧ (∀ p ∈ conns0, FB.SSEvent.closeConn p ∈ A)
      ∧ (∀ e ∈ A, FB.isTrackAddEvent e = false ∧ FB.isOfferEvent e = false
          ∧ FB.isCreateEvent e = false)
      ∧ (connsEnsure = [] → connsTrack = [] →
          ∀ e ∈ FB.shareScreen myId peerSharing conns0 now connsEnsure connsTrack,
            FB.isCreateEvent e = false ∧ FB.isTrackAddEvent e = false) := by
  have hcnt : 0 < (peerSharing.filter (fun e => e.2)).length := by
    have hmem : (q, true) ∈ peerSharing.filter (fun e => e.2) :=
      List.mem_filter.mpr ⟨hq, rfl⟩
    exact List.length_pos.mpr (List.ne_nil_of_mem hmem)
  refine ⟨FB.SSEvent.coordIntent (FB.coordinationId myId now)
      :: (conns0.map (fun p => FB.SSEvent.preShare p (FB.coordinationId myId now))
        ++ ([FB.SSEvent.awaitAcksOrTimeout (FB.coordinationId myId now) 5000]
          ++ conns0.map FB.SSEvent.closeConn)),
    [FB.SSEvent.displayMedia, FB.SSEvent.setStreamingFlag]
      ++ (FB.ensureEvents myId connsEnsure ++ FB.trackEvents myId connsTrack),
    ?_, ?_, ?_, ?_⟩
  · simp [FB.shareScreen, hcnt, List.append_assoc]
  · intro p hp
    simp only [List.mem_cons, List.mem_append, List.mem_map, List.not_mem_nil, or_false]
    exact Or.inr (Or.inr (Or.inr ⟨p, hp, rfl⟩))
  · intro e he
    simp only [List.mem_cons, List.mem_append, List.mem_map, List.not_mem_nil, or_false] at he
    rcases he with rfl | ⟨p, _, rfl⟩ | rfl | ⟨p, _, rfl⟩ <;> exact ⟨rfl, rfl, rfl⟩
  · intro hE hT e he
    subst hE; subst hT
    cases e
    case createConn p b =>
      simp [FB.shareScreen, hcnt, FB.ensureEvents, FB.trackEvents] at he
    case addTracks p =>
      simp [FB.shareScreen, hcnt, FB.ensureEvents, FB.trackEvents] at he
    all_goals exact ⟨rfl, rfl⟩

/-- Witness for C8 (amended) at the same concrete call as the
counterexample, with timestamp 2. -/
theorem claim8_witness :
    ("a", true) ∈ [("a", true)]
    ∧ (∃ A B, FB.shareScreen "b" [("a", true)] ["a"] 2 [] [] = A ++ B
      ∧ (∀ p ∈ ["a"], FB.SSEvent.closeConn p ∈ A)
      ∧ (∀ e ∈ A, FB.isTrackAddEvent e = false ∧ FB.isOfferEvent e = false
          ∧ FB.isCreateEvent e = false)
      ∧ (([] : List (String × FB.SharePC)) = [] → ([] : List (String × FB.SharePC)) = [] →
          ∀ e ∈ FB.shareScreen "b" [("a", true)] ["a"] 2 [] [],
            FB.isCreateEvent e = false ∧ FB.isTrackAddEvent e = false)) :=
  ⟨by decide,
    claim8_close_before_tracks "b" [("a", true)] ["a"] 2 [] [] "a" (by decide)⟩

end WebRTCSpec
